import Mathlib

/-!
Verification of the liquidctl SMBus/DDR4 subsystem: the Safety Gate,
the DDR4 temperature driver, the Corsair Vengeance RGB extension driver,
and the Linux I²C bus topology reader and discovery engine
(`liquidctl/driver/smbus.py`), against the repository specification.

The DDR4 driver module (`liquidctl/driver/ddr4.py`), the Safety Gate helper
(`liquidctl/util.check_unsafe`) and the error types (`liquidctl/error.py`)
are not part of the source tree; their behaviour is modelled from the
specification, as indicated in the corresponding doc comments.  Everything
about `smbus.py` is translated directly from that file.
-/

/-- Modelled from the spec: the Safety Gate check (`liquidctl.util.check_unsafe`
is not in the source tree).  The caller supplies a set of opaque string tokens;
the check passes exactly when every requested feature token is present in the
supplied set. -/
def checkUnsafe (features : List String) (tokens : List String) : Bool :=
  features.all (fun f => tokens.contains f)

/-! ## DDR4 temperature driver (modelled from the spec) -/

/-- Modelled from the spec: TSE2004-class temperature register decode
(`liquidctl.driver.ddr4` is not in the source tree).  The 16-bit raw word has
its top 3 status/reserved bits masked off (reduction modulo 2^13); the
remaining 13-bit field is sign-extended as two's complement and scaled by the
0.0625 °C/LSB resolution. -/
def ddr4TemperatureDecode (raw : Nat) : ℚ :=
  let masked : Nat := raw % 0x2000
  let signed : Int := if masked < 0x1000 then (masked : Int) else (masked : Int) - 0x2000
  (signed : ℚ) / 16

/-- A status entry: label, value, unit. -/
abbrev StatusEntry := String × ℚ × String

/-- Modelled from the spec: the TSE2004-class temperature sensor of the module
at `spdAddress` responds at `0x18` plus the slot offset (the documented setup
places the sensor of the module at `0x51` at `0x19`). -/
def ddr4TsAddress (spdAddress : Nat) : Nat :=
  0x18 + (spdAddress - 0x50)

/-- Modelled from the spec: `Ddr4Temperature.get_status`.  If the Safety Gate
tokens for this driver kind (`smbus` and `ddr4_temperature`) are not all
present, it returns an empty result without touching the hardware; when
enabled it reads the fixed temperature register (`0x05`) of the sensor as a
16-bit word and decodes it.  The first component records the
(address, register) reads that were performed, the second the status
entries. -/
def ddr4GetStatus (spdAddress : Nat) (tokens : List String)
    (readWord : Nat → Nat → Nat) : List (Nat × Nat) × List StatusEntry :=
  if checkUnsafe ["smbus", "ddr4_temperature"] tokens then
    let a := ddr4TsAddress spdAddress
    let raw := readWord a 0x05
    ([(a, 0x05)], [("Temperature", ddr4TemperatureDecode raw, "°C")])
  else
    ([], [])

/-! ## Corsair Vengeance RGB extension driver (modelled from the spec) -/

/-- An RGB triplet. -/
abbrev Rgb := Nat × Nat × Nat

/-- Errors raised by `set_color`; `unsafeFeaturesNotEnabled` corresponds to
`liquidctl.error.UnsafeFeaturesNotEnabled`. -/
inductive SetColorError
  | unsafeFeaturesNotEnabled
  | invalidInput
deriving DecidableEq

/-- Modelled from the spec: the Vengeance RGB mode table.  For a supported
(mode, colors) combination it yields the step count, the mode-parameter byte
and the triplets to write (at most 2 steps): `off` writes one all-zero
triplet; `fixed` the single supplied color; `breathing` with a single color
the special case step-count 1 and parameter 0; `breathing` with two colors
step-count 2 and parameter 2; `fading` with two colors step-count 2 and
parameter 1. -/
def vengeanceModePlan (mode : String) (colors : List Rgb) :
    Except SetColorError (Nat × Nat × List Rgb) :=
  if mode = "off" then
    .ok (1, 0, [(0, 0, 0)])
  else if mode = "fixed" then
    match colors with
    | c :: _ => .ok (1, 0, [c])
    | [] => .error .invalidInput
  else if mode = "breathing" then
    match colors with
    | [] => .error .invalidInput
    | [c] => .ok (1, 0, [c])
    | c1 :: c2 :: _ => .ok (2, 2, [c1, c2])
  else if mode = "fading" then
    match colors with
    | c1 :: c2 :: _ => .ok (2, 1, [c1, c2])
    | _ => .error .invalidInput
  else
    .error .invalidInput

/-- The byte-register writes for a list of RGB triplets laid out consecutively
from `base` (the spec's fixed triplet offset is `0xb0`). -/
def tripletWrites (base : Nat) : List Rgb → List (Nat × Nat)
  | [] => []
  | (r, g, b) :: rest =>
      (base, r) :: (base + 1, g) :: (base + 2, b) :: tripletWrites (base + 3) rest

/-- Modelled from the spec: `VengeanceRgb.set_color`.  Requires both the
generic bus token (`smbus`) and the driver-specific token (`vengeance_rgb`);
missing either raises the distinct unsafe-features-not-enabled error and
performs no register writes.  On success it returns the control address
(`spd_address + 8`) together with the (register, value) writes: the two
reserved registers adjacent to the step count (treated as zeroed per the
spec), the step count at `0xa7`, the mode parameter at `0xa6`, and the RGB
triplets from `0xb0`. -/
def vengeanceSetColor (spdAddress : Nat) (channel mode : String)
    (colors : List Rgb) (tokens : List String) :
    Except SetColorError (Nat × List (Nat × Nat)) :=
  if checkUnsafe ["smbus", "vengeance_rgb"] tokens then
    match vengeanceModePlan mode colors with
    | .ok (steps, param, cs) =>
        .ok (spdAddress + 8,
          [(0xa4, 0), (0xa5, 0), (0xa7, steps), (0xa6, param)] ++ tripletWrites 0xb0 cs)
    | .error e => .error e
  else
    .error .unsafeFeaturesNotEnabled

/-- Applying a list of (register, value) writes, in order, to a register
file. -/
def applyWrites (ws : List (Nat × Nat)) (regs : Nat → Nat) : Nat → Nat :=
  match ws with
  | [] => regs
  | (r, v) :: rest => applyWrites rest (fun x => if x = r then v else regs x)

/-! ## DDR4 SPD decoding (modelled from the spec) -/

/-- Modelled from the spec: the JEDEC manufacturer-ID lookup table
(bank, parity-stripped index), restricted to the vendors the specification
names for the documented sample (Corsair, bank 3 = two continuation codes,
index 0x1e; Samsung, bank 1 = no continuation code, index 0x4e). -/
def jep106 : List ((Nat × Nat) × String) :=
  [((2, 0x1e), "Corsair"), ((0, 0x4e), "Samsung")]

/-- Modelled from the spec: JEDEC bank/index continuation-code manufacturer
decoding.  The fixed 2-byte field carries the continuation-code count (the
bank) and the terminating index byte; bit 7 of each byte is a parity bit,
stripped on decode; an ID absent from the static table decodes to `none`. -/
def decodeManufacturer (b0 b1 : Nat) : Option String :=
  match jep106.find? (fun e => e.1 == (b0 % 0x80, b1 % 0x80)) with
  | some e => some e.2
  | none => none

/-- The decoded SPD fields the temperature and RGB drivers rely on. -/
structure Ddr4SpdFields where
  thermalSensorPresent : Bool
  moduleManufacturer : Option String
deriving DecidableEq

/-- Modelled from the spec: `Ddr4Spd` decoding.  Decoding fails fast exactly
when the buffer is shorter than the minimum 256 bytes; thermal-sensor
presence is bit 7 of the module-organization byte at offset `0x0e`; the
module manufacturer is decoded from the 2-byte field at offset `0x140`. -/
def decodeSpd (dump : List Nat) : Option Ddr4SpdFields :=
  if dump.length < 256 then
    none
  else
    some
      { thermalSensorPresent := (dump.getD 0x0e 0).testBit 7
        moduleManufacturer := decodeManufacturer (dump.getD 0x140 0) (dump.getD 0x141 0) }

/-! ## Temperature driver probe (modelled from the spec) -/

/-- The model of a Linux I²C bus as the DDR4 drivers see it: the raw SPD
dump available at each address (if any) and the bound-kernel-driver
metadata of the parent device (if available). -/
structure VBus where
  spdData : Nat → Option (List Nat)
  parentDriver : Option String

/-- Modelled from the tests: the set of bound kernel drivers the DDR4
temperature driver accepts (the documented setup binds `i801_smbus`;
changing it to any other value makes `probe` yield nothing). -/
def allowedParentDrivers : List String := ["i801_smbus"]

/-- The bound-kernel-driver check: passes when the metadata is unavailable
or names an allowed driver. -/
def parentDriverAllowed (b : VBus) : Bool :=
  match b.parentDriver with
  | none => true
  | some d => allowedParentDrivers.contains d

/-- The SPD EEPROM address range `0x50–0x57`, in ascending order. -/
def spdAddresses : List Nat :=
  [0x50, 0x51, 0x52, 0x53, 0x54, 0x55, 0x56, 0x57]

/-- A bound driver instance, as far as the claims are concerned: the SPD
address it was created for and its human-readable description. -/
structure Ddr4Instance where
  address : Nat
  description : String
deriving DecidableEq

/-- Modelled from the spec: the instance description embeds the decoded
manufacturer and the 1-based slot index `address - 0x4f`, formatted
e.g. `Corsair DIMM4 (experimental)`. -/
def ddr4Description (manufacturer : Option String) (addr : Nat) : String :=
  (match manufacturer with | some m => m | none => "Unknown") ++
    " DIMM" ++ toString (addr - 0x4f) ++ " (experimental)"

/-- Modelled from the spec: `Ddr4Temperature.probe`.  If the bus's
bound-kernel-driver metadata is available and not allowed, nothing is
yielded; otherwise every address in `0x50–0x57` is scanned in order and an
instance is yielded exactly for the addresses where an SPD dump is present,
decodes successfully, and has the thermal-sensor bit set. -/
def ddr4Probe (b : VBus) : List Ddr4Instance :=
  if parentDriverAllowed b then
    spdAddresses.filterMap (fun addr =>
      match b.spdData addr with
      | none => none
      | some dump =>
          match decodeSpd dump with
          | none => none
          | some spd =>
              if spd.thermalSensorPresent then
                some { address := addr
                       description := ddr4Description spd.moduleManufacturer addr }
              else
                none)
  else
    []

/-- The declarative eligibility predicate of the spec: an address yields an
instance exactly when the parent-driver check passes, an SPD dump is
present there, it decodes, and its thermal-sensor bit is set. -/
def ddr4Eligible (b : VBus) (addr : Nat) : Bool :=
  parentDriverAllowed b &&
    (match b.spdData addr with
     | none => false
     | some dump =>
         match decodeSpd dump with
         | none => false
         | some spd => spd.thermalSensorPresent)

/-- The decoded module manufacturer of the dump at `addr`, when present. -/
def ddr4ManufacturerAt (b : VBus) (addr : Nat) : Option String :=
  match b.spdData addr with
  | none => none
  | some dump =>
      match decodeSpd dump with
      | none => none
      | some spd => spd.moduleManufacturer

/-- The documented thermal-sensor SPD sample: the Vengeance RGB sample dump
from the tests with the part number cleared and the thermal-sensor bit
(bit 7 of byte `0x0e`) set. -/
def tsSpdSample : List Nat :=
  [35, 16, 12, 2, 133, 33, 0, 8, 0, 0, 0, 3, 9, 3, 128, 0, 0, 0, 8, 12, 252, 3, 0, 0, 108, 108,
   108, 17, 8, 116, 240, 10, 32, 8, 0, 5, 0, 168, 30, 43, 43, 0, 0, 0, 0, 0, 0, 0, 0, 0, 0, 0, 0,
   0, 0, 0, 0, 0, 0, 0, 22, 54, 22, 54, 22, 54, 22, 54, 0, 0, 43, 12, 43, 12, 43, 12, 43, 12, 0,
   0, 0, 0, 0, 0, 0, 0, 0, 0, 0, 0, 0, 0, 0, 0, 0, 0, 0, 0, 0, 0, 0, 0, 0, 0, 0, 0, 0, 0, 0, 0,
   0, 0, 0, 0, 0, 0, 0, 237, 181, 206, 0, 0, 0, 0, 0, 194, 77, 167, 17, 17, 1, 1, 0, 0, 0, 0, 0,
   0, 0, 0, 0, 0, 0, 0, 0, 0, 0, 0, 0, 0, 0, 0, 0, 0, 0, 0, 0, 0, 0, 0, 0, 0, 0, 0, 0, 0, 0, 0,
   0, 0, 0, 0, 0, 0, 0, 0, 0, 0, 0, 0, 0, 0, 0, 0, 0, 0, 0, 0, 0, 0, 0, 0, 0, 0, 0, 0, 0, 0, 0,
   0, 0, 0, 0, 0, 0, 0, 0, 0, 0, 0, 0, 0, 0, 0, 0, 0, 0, 0, 0, 0, 0, 0, 0, 0, 0, 0, 0, 0, 0, 0,
   0, 0, 0, 0, 0, 0, 0, 0, 0, 0, 0, 0, 0, 0, 0, 0, 0, 0, 0, 0, 0, 0, 0, 0, 222, 39, 0, 0, 0, 0,
   0, 0, 0, 0, 0, 0, 0, 0, 0, 0, 0, 0, 0, 0, 0, 0, 0, 0, 0, 0, 0, 0, 0, 0, 0, 0, 0, 0, 0, 0, 0,
   0, 0, 0, 0, 0, 0, 0, 0, 0, 0, 0, 0, 0, 0, 0, 0, 0, 0, 0, 0, 0, 0, 0, 0, 0, 0, 0, 0, 0, 2, 158,
   0, 0, 0, 0, 0, 0, 0, 32, 32, 32, 32, 32, 32, 32, 32, 32, 32, 32, 32, 32, 32, 32, 32, 32, 32,
   32, 32, 0, 128, 206, 0, 0, 0, 0, 0, 0, 0, 0, 0, 0, 0, 0, 0, 0, 0, 0, 0, 0, 0, 0, 0, 0, 0, 0,
   0, 0, 0, 0, 0, 0, 0, 0, 12, 74, 1, 32, 0, 0, 0, 0, 0, 163, 0, 0, 5, 252, 63, 4, 0, 77, 87, 87,
   16, 172, 3, 240, 10, 32, 8, 0, 5, 0, 176, 34, 44, 0, 0, 0, 0, 0, 0, 0, 0, 156, 206, 181, 181,
   181, 231, 231, 0, 0, 0, 0, 0, 0, 0, 0, 0, 0, 0, 0, 0, 0, 0, 0, 0, 0, 0, 0, 0, 0, 0, 0, 0, 0,
   0, 0, 0, 0, 0, 0, 0, 0, 0, 0, 0, 0, 0, 0, 0, 0, 0, 0, 0, 0, 0, 0, 0, 0, 0, 0, 0, 0, 0, 0, 0,
   0, 0, 0, 0, 0, 0, 0, 0, 0, 0, 0, 0, 0, 0, 0, 0, 0, 0, 0, 0, 0, 0, 0]

/-- The documented four-module setup: TS-positive SPD dumps at addresses
`0x51`, `0x53`, `0x55` and `0x57` on a bus bound to `i801_smbus`. -/
def fourDimmBus : VBus where
  spdData := fun a =>
    if a = 0x51 ∨ a = 0x53 ∨ a = 0x55 ∨ a = 0x57 then some tsSpdSample else none
  parentDriver := some "i801_smbus"

/-! ## `liquidctl/driver/smbus.py`: the Linux I²C bus handle

Translated from `LinuxI2cBus` in `src/liquidctl/driver/smbus.py`. -/

/-- The outcome of the external `smbus.SMBus(number)` constructor: a handle,
a `FileNotFoundError`, or some other `OSError`. -/
inductive SmbusCtorOutcome
  | ok (handle : Nat)
  | fileNotFound
  | otherOsError
deriving DecidableEq

/-- The external environment `LinuxI2cBus.open` consults: the result of
constructing an `smbus.SMBus` for a given bus number, and whether the
capability-marker path `/sys/class/i2c-dev` exists. -/
structure SmbusEnv where
  newSmbus : Nat → SmbusCtorOutcome
  i2cDevClassExists : Bool

/-- The state of a `LinuxI2cBus`: its bus number and the stored smbus handle
(`self._smbus`), which is `none` until `open` succeeds. -/
structure BusState where
  number : Nat
  smbus : Option Nat
deriving DecidableEq

/-- The errors `LinuxI2cBus.open` can raise: the propagated original
`FileNotFoundError`, the descriptive `OSError('kernel module i2c-dev not
loaded')`, or some other propagated `OSError`. -/
inductive OpenError
  | fileNotFound
  | moduleNotLoaded
  | otherOsError
deriving DecidableEq

/-- `LinuxI2cBus.open` (smbus.py lines 106–114): if a handle is already
stored, do nothing; otherwise construct a new `SMBus` handle; on
`FileNotFoundError`, re-raise it unchanged when `/sys/class/i2c-dev` exists
and raise the descriptive module-not-loaded error when it does not. -/
def busOpen (env : SmbusEnv) (b : BusState) : Except OpenError BusState :=
  match b.smbus with
  | some _ => .ok b
  | none =>
      match env.newSmbus b.number with
      | .ok h => .ok { b with smbus := some h }
      | .fileNotFound =>
          if env.i2cDevClassExists then .error .fileNotFound
          else .error .moduleNotLoaded
      | .otherOsError => .error .otherOsError

/-- `LinuxI2cBus.close` (smbus.py lines 140–144): if a handle is stored,
close it and reset the stored handle to `None`; otherwise do nothing. -/
def busClose (b : BusState) : BusState :=
  match b.smbus with
  | some _ => { b with smbus := none }
  | none => b

/-- What `SmbusDriver.connect` did: skipped opening with a logged warning,
or opened the bus. -/
inductive ConnectAction
  | skippedWithWarning
  | openedBus
deriving DecidableEq

/-- `SmbusDriver.connect` (smbus.py lines 246–251): if the Safety Gate token
`smbus` is absent, log a warning and return without opening the bus;
otherwise open it. -/
def smbusConnect (env : SmbusEnv) (tokens : List String) (b : BusState) :
    Except OpenError (BusState × ConnectAction) :=
  if checkUnsafe ["smbus"] tokens then
    match busOpen env b with
    | .ok b2 => .ok (b2, .openedBus)
    | .error e => .error e
  else
    .ok (b, .skippedWithWarning)

/-- `SmbusDriver.disconnect` (smbus.py lines 253–255): closes the bus. -/
def smbusDisconnect (b : BusState) : BusState :=
  busClose b

/-! ## `liquidctl/driver/smbus.py`: topology reader and discovery engine

Translated from `LinuxI2c.find_devices` and `LinuxI2cBus.find_devices`. -/

/-- A directory entry under `/sys/bus/i2c/devices`, identified by its
name. -/
structure I2cDev where
  devName : String
deriving DecidableEq

/-- `LinuxI2cBus.__init__` (smbus.py lines 91–99): the constructor accepts
the entry only when its name starts with `i2c-` and the rest parses as a
number, else it raises `ValueError` (modelled as `none`). -/
def parseBusNumber (nm : String) : Option Nat :=
  if nm.startsWith "i2c-" then (nm.drop 4).toNat? else none

/-- A registered `SmbusDriver` subclass as the discovery engine sees it: its
`__module__`, its `__name__`, and its `probe` classmethod (instances are
abstracted as numeric identifiers). -/
structure SmbusDriverDesc where
  modName : String
  clsName : String
  probe : I2cDev → List Nat

/-- The sort key `lambda x: (x.__module__, x.__name__)` used by
`LinuxI2c.find_devices` (smbus.py lines 58–59). -/
def driverSortKey (d : SmbusDriverDesc) : String × String :=
  (d.modName, d.clsName)

/-- The boolean sort order on descriptors induced by the stable name key
(lexicographic on the `(module, name)` pair). -/
def driverLe (a b : SmbusDriverDesc) : Bool :=
  a.modName < b.modName || (a.modName = b.modName && a.clsName ≤ b.clsName)

/-- The deterministic sort of the registered drivers,
`sorted(find_all_subclasses(SmbusDriver), key=...)`. -/
def sortDrivers (drivers : List SmbusDriverDesc) : List SmbusDriverDesc :=
  drivers.mergeSort driverLe

/-- The truthiness of an optional string argument, as Python's `if x:`
evaluates it. -/
def strTruthy (o : Option String) : Bool :=
  match o with
  | none => false
  | some s => !(s = "")

/-- `LinuxI2cBus.find_devices` (smbus.py lines 101–104): probe every driver
on this bus and concatenate the results. -/
def busFindDevices (drivers : List SmbusDriverDesc) (dev : I2cDev) : List Nat :=
  drivers.flatMap (fun d => d.probe dev)

/-- `LinuxI2c.find_devices` (smbus.py lines 40–75).  A truthy `usb_port`
filter yields nothing; an unavailable `smbus` package yields nothing; a
missing `/sys/bus/i2c/devices` root yields nothing (each only logged).
Otherwise the registered drivers are sorted by the stable name key and, for
every directory entry whose name parses as an I²C bus and that passes the
truthy bus-name equality filter, every driver's `probe` is invoked and the
results concatenated. -/
def findDevices (drivers : List SmbusDriverDesc) (entries : List I2cDev)
    (busFilter : Option String) (usbPort : Option String)
    (smbusAvailable : Bool) (rootExists : Bool) : List Nat :=
  if strTruthy usbPort then []
  else if !smbusAvailable then []
  else if !rootExists then []
  else
    let sorted := sortDrivers drivers
    entries.flatMap (fun e =>
      if (parseBusNumber e.devName).isNone then []
      else if strTruthy busFilter && !(busFilter = some e.devName) then []
      else busFindDevices sorted e)

/-! ## Theorems -/

set_option maxRecDepth 20000

/-- C6: for every call to `get_status` on the temperature driver, if the
driver-specific safety token is absent from the supplied unsafe-token set,
the call returns an empty sequence (no metrics) without raising and without
attempting any hardware access (the performed-reads component is empty as
well). -/
theorem ddr4_get_status_empty_without_token (spdAddress : Nat)
    (tokens : List String) (readWord : Nat → Nat → Nat)
    (h : tokens.contains "ddr4_temperature" = false) :
    ddr4GetStatus spdAddress tokens readWord = ([], []) := by
  have h' : "ddr4_temperature" ∉ tokens := by simpa using h
  unfold ddr4GetStatus checkUnsafe
  simp [h']

/-- Witness for C6: without any token, `get_status` performs no reads and
yields no entries. -/
theorem ddr4_get_status_empty_without_token_witness :
    ddr4GetStatus 0x51 [] (fun _ _ => 0xe19c) = ([], []) :=
  ddr4_get_status_empty_without_token 0x51 [] (fun _ _ => 0xe19c) (by decide)

/-- C5: for every call to `connect` on an SMBus driver instance, if the
supplied unsafe-token set does not contain the generic bus token `smbus`,
`connect` logs a warning and returns without opening the bus (a non-fatal
no-op that leaves the bus state unchanged); only when the token is present
is the bus opened. -/
theorem smbus_connect_gate (env : SmbusEnv) (tokens : List String) (b : BusState) :
    (tokens.contains "smbus" = false →
      smbusConnect env tokens b = .ok (b, .skippedWithWarning))
    ∧ (tokens.contains "smbus" = true →
      smbusConnect env tokens b
        = (busOpen env b).map (fun b2 => (b2, ConnectAction.openedBus))) := by
  constructor
  · intro h
    have h' : "smbus" ∉ tokens := by simpa using h
    unfold smbusConnect checkUnsafe
    simp [h']
  · intro h
    have h' : "smbus" ∈ tokens := by simpa using h
    unfold smbusConnect checkUnsafe
    simp [h']
    cases busOpen env b <;> simp [Except.map]

/-- Witness for C5: with no tokens `connect` skips opening and leaves the
never-opened bus untouched; with the `smbus` token it opens the bus. -/
theorem smbus_connect_gate_witness :
    smbusConnect ⟨fun _ => .ok 7, true⟩ [] ⟨1, none⟩ = .ok (⟨1, none⟩, .skippedWithWarning)
    ∧ smbusConnect ⟨fun _ => .ok 7, true⟩ ["smbus"] ⟨1, none⟩
        = (busOpen ⟨fun _ => .ok 7, true⟩ ⟨1, none⟩).map
            (fun b2 => (b2, ConnectAction.openedBus)) :=
  ⟨(smbus_connect_gate ⟨fun _ => .ok 7, true⟩ [] ⟨1, none⟩).1 (by decide),
   (smbus_connect_gate ⟨fun _ => .ok 7, true⟩ ["smbus"] ⟨1, none⟩).2 (by decide)⟩

/-- C7: when opening a bus fails because the device node is absent, the
failure modes are distinguished: if `/sys/class/i2c-dev` does not exist,
`open` raises the descriptive kernel-module-not-loaded error; if it exists,
the original not-found error is propagated unchanged. -/
theorem busOpen_distinguishes_missing_module (env : SmbusEnv) (b : BusState)
    (h1 : b.smbus = none) (h2 : env.newSmbus b.number = .fileNotFound) :
    busOpen env b = .error
      (if env.i2cDevClassExists then .fileNotFound else .moduleNotLoaded) := by
  unfold busOpen
  simp only [h1, h2]
  split <;> rfl

/-- Witness for C7: with the marker path present the original error is
propagated; with it absent the descriptive error is raised. -/
theorem busOpen_distinguishes_missing_module_witness :
    busOpen ⟨fun _ => .fileNotFound, true⟩ ⟨0, none⟩ = .error .fileNotFound
    ∧ busOpen ⟨fun _ => .fileNotFound, false⟩ ⟨0, none⟩ = .error .moduleNotLoaded :=
  ⟨busOpen_distinguishes_missing_module ⟨fun _ => .fileNotFound, true⟩ ⟨0, none⟩ rfl rfl,
   busOpen_distinguishes_missing_module ⟨fun _ => .fileNotFound, false⟩ ⟨0, none⟩ rfl rfl⟩

/-- C9: `find_devices` yields the empty sequence, without raising, whenever a
(truthy) `usb_port` filter is supplied, or the optional smbus capability is
unavailable, or the bus-topology root path does not exist. -/
theorem find_devices_empty_cases (drivers : List SmbusDriverDesc)
    (entries : List I2cDev) (busFilter : Option String) :
    (∀ p : String, p ≠ "" →
      ∀ smbusAvailable rootExists,
        findDevices drivers entries busFilter (some p) smbusAvailable rootExists = [])
    ∧ (∀ usbPort rootExists,
        findDevices drivers entries busFilter usbPort false rootExists = [])
    ∧ (∀ usbPort smbusAvailable,
        findDevices drivers entries busFilter usbPort smbusAvailable false = []) := by
  refine ⟨?_, ?_, ?_⟩
  · intro p hp smbusAvailable rootExists
    unfold findDevices strTruthy
    simp [hp]
  · intro usbPort rootExists
    unfold findDevices
    cases usbPort with
    | none => simp [strTruthy]
    | some p => by_cases hp : p = "" <;> simp [strTruthy, hp]
  · intro usbPort smbusAvailable
    unfold findDevices
    cases usbPort with
    | none => cases smbusAvailable <;> simp [strTruthy]
    | some p =>
        cases smbusAvailable <;> by_cases hp : p = "" <;> simp [strTruthy, hp]

/-- Witness for C9: each of the three degraded configurations yields the
empty sequence. -/
theorem find_devices_empty_cases_witness :
    findDevices [] [] none (some "1-1.4") true true = []
    ∧ findDevices [] [] none none false true = []
    ∧ findDevices [] [] none none true false = [] :=
  ⟨(find_devices_empty_cases [] [] none).1 "1-1.4" (by decide) true true,
   (find_devices_empty_cases [] [] none).2.1 none true,
   (find_devices_empty_cases [] [] none).2.2 none true⟩

/-- C10: bus handle open and close are idempotent: opening an already-open
bus leaves the existing handle unchanged, closing a closed or never-opened
bus is a harmless no-op, after `close` the stored handle is `none`, closing
twice equals closing once, and `disconnect` is exactly `close`, so it is
safe even when `connect` skipped opening. -/
theorem bus_handle_lifecycle :
    (∀ (env : SmbusEnv) (b : BusState) (h : Nat),
      b.smbus = some h → busOpen env b = .ok b)
    ∧ (∀ b : BusState, b.smbus = none → busClose b = b)
    ∧ (∀ b : BusState, (busClose b).smbus = none)
    ∧ (∀ b : BusState, busClose (busClose b) = busClose b)
    ∧ (∀ b : BusState, smbusDisconnect b = busClose b) := by
  refine ⟨?_, ?_, ?_, ?_, ?_⟩
  · intro env b h hb
    unfold busOpen
    rw [hb]
  · intro b hb
    unfold busClose
    rw [hb]
  · intro b
    unfold busClose
    cases hb : b.smbus <;> simp [hb]
  · intro b
    unfold busClose
    cases hb : b.smbus <;> simp [hb]
  · intro b
    rfl

/-- Witness for C10: a stored handle survives a second `open` untouched, and
`close` on a never-opened bus does nothing. -/
theorem bus_handle_lifecycle_witness :
    busOpen ⟨fun _ => .ok 7, true⟩ ⟨2, some 5⟩ = .ok ⟨2, some 5⟩
    ∧ busClose ⟨2, none⟩ = ⟨2, none⟩ :=
  ⟨bus_handle_lifecycle.1 ⟨fun _ => .ok 7, true⟩ ⟨2, some 5⟩ 5 rfl,
   bus_handle_lifecycle.2.1 ⟨2, none⟩ rfl⟩

/-- Helper: the two's-complement reading of the masked 13-bit field.  For
every raw word the decoded value is `t / 16` for the unique integer `t` with
`-4096 ≤ t < 4096` congruent to the raw word modulo `2^13`. -/
theorem ddr4TemperatureDecode_twosComplement (raw : Nat) :
    ∃ t : Int, ddr4TemperatureDecode raw = (t : ℚ) / 16
      ∧ -4096 ≤ t ∧ t < 4096 ∧ t % 8192 = (raw : Int) % 8192 := by
  unfold ddr4TemperatureDecode
  by_cases hm : raw % 0x2000 < 0x1000
  · refine ⟨(raw % 0x2000 : Nat), ?_, ?_, ?_, ?_⟩
    · simp [hm]
    · omega
    · omega
    · omega
  · refine ⟨(raw % 0x2000 : Nat) - 0x2000, ?_, ?_, ?_, ?_⟩
    · simp [hm]
    · have := Nat.mod_lt raw (show 0 < 0x2000 by norm_num)
      omega
    · have := Nat.mod_lt raw (show 0 < 0x2000 by norm_num)
      omega
    · omega

/-- C1: for every raw temperature word, `get_status` with both required
safety tokens yields exactly one `("Temperature", value, "°C")` entry whose
value decodes the word read from the fixed register: the top 3 bits are
masked off and the remaining 13-bit field is read as two's complement at the
fixed 0.0625 °C/LSB resolution (the value is `t / 16` for the unique integer
`-4096 ≤ t < 4096` congruent to the raw word mod `2^13`); the documented
raw vectors decode exactly to 25.75 °C and −24.75 °C. -/
theorem ddr4_get_status_single_temperature_entry (spdAddress : Nat)
    (tokens : List String) (readWord : Nat → Nat → Nat)
    (h1 : tokens.contains "smbus" = true)
    (h2 : tokens.contains "ddr4_temperature" = true) :
    (ddr4GetStatus spdAddress tokens readWord).2
        = [("Temperature",
             ddr4TemperatureDecode (readWord (ddr4TsAddress spdAddress) 0x05), "°C")]
    ∧ (∀ raw : Nat, ∃ t : Int, ddr4TemperatureDecode raw = (t : ℚ) / 16
         ∧ -4096 ≤ t ∧ t < 4096 ∧ t % 8192 = (raw : Int) % 8192)
    ∧ ddr4TemperatureDecode 0xe19c = 25.75
    ∧ ddr4TemperatureDecode 0x1e74 = -24.75 := by
  have h1' : "smbus" ∈ tokens := by simpa using h1
  have h2' : "ddr4_temperature" ∈ tokens := by simpa using h2
  refine ⟨?_, ddr4TemperatureDecode_twosComplement, ?_, ?_⟩
  · unfold ddr4GetStatus checkUnsafe
    simp [h1', h2']
  · unfold ddr4TemperatureDecode
    norm_num
  · unfold ddr4TemperatureDecode
    norm_num

/-- Witness for C1: with both tokens supplied and the documented raw word
`0xe19c` on the wire, `get_status` yields the single 25.75 °C entry. -/
theorem ddr4_get_status_single_temperature_entry_witness :
    (ddr4GetStatus 0x51 ["smbus", "ddr4_temperature"] (fun _ _ => 0xe19c)).2
        = [("Temperature", ddr4TemperatureDecode 0xe19c, "°C")] :=
  (ddr4_get_status_single_temperature_entry 0x51 ["smbus", "ddr4_temperature"]
    (fun _ _ => 0xe19c) (by decide) (by decide)).1

/-- C2: every call to `set_color` whose unsafe-token set misses the generic
bus token or the driver-specific token fails with the distinct
unsafe-features-not-enabled error and performs no register writes (no `.ok`
write list is produced, so it never silently no-ops); with both tokens
present, any call covered by the mode table succeeds. -/
theorem vengeance_set_color_gate (spdAddress : Nat) (channel mode : String)
    (colors : List Rgb) (tokens : List String) :
    ((tokens.contains "smbus" = false ∨ tokens.contains "vengeance_rgb" = false) →
      vengeanceSetColor spdAddress channel mode colors tokens
        = .error .unsafeFeaturesNotEnabled)
    ∧ (tokens.contains "smbus" = true → tokens.contains "vengeance_rgb" = true →
      ∀ steps param cs, vengeanceModePlan mode colors = .ok (steps, param, cs) →
        vengeanceSetColor spdAddress channel mode colors tokens
          = .ok (spdAddress + 8,
              [(0xa4, 0), (0xa5, 0), (0xa7, steps), (0xa6, param)]
                ++ tripletWrites 0xb0 cs)) := by
  constructor
  · intro h
    unfold vengeanceSetColor checkUnsafe
    rcases h with h | h
    · have h' : "smbus" ∉ tokens := by simpa using h
      simp [h']
    · have h' : "vengeance_rgb" ∉ tokens := by simpa using h
      simp [h']
  · intro h1 h2 steps param cs hplan
    have h1' : "smbus" ∈ tokens := by simpa using h1
    have h2' : "vengeance_rgb" ∈ tokens := by simpa using h2
    unfold vengeanceSetColor checkUnsafe
    simp [h1', h2', hplan]

/-- Witness for C2: the documented `off` call fails with only the `smbus`
token and succeeds with both tokens. -/
theorem vengeance_set_color_gate_witness :
    vengeanceSetColor 0x51 "led" "off" [] ["smbus"]
      = .error .unsafeFeaturesNotEnabled
    ∧ vengeanceSetColor 0x51 "led" "off" [] ["smbus", "vengeance_rgb"]
      = .ok (0x59, [(0xa4, 0), (0xa5, 0), (0xa7, 1), (0xa6, 0)]
          ++ tripletWrites 0xb0 [(0, 0, 0)]) :=
  ⟨(vengeance_set_color_gate 0x51 "led" "off" [] ["smbus"]).1 (Or.inr (by decide)),
   (vengeance_set_color_gate 0x51 "led" "off" [] ["smbus", "vengeance_rgb"]).2
     (by decide) (by decide) 1 0 [(0, 0, 0)] rfl⟩

/-- Helper: each triplet contributes exactly three byte writes. -/
theorem tripletWrites_length (cs : List Rgb) :
    ∀ base, (tripletWrites base cs).length = 3 * cs.length := by
  induction cs with
  | nil => intro base; simp [tripletWrites]
  | cons c rest ih =>
      intro base
      obtain ⟨r, g, b⟩ := c
      simp [tripletWrites, ih]
      ring

/-- Helper: the mode table never configures more than 2 steps. -/
theorem vengeanceModePlan_le_two (mode : String) (colors : List Rgb)
    (steps param : Nat) (cs : List Rgb)
    (h : vengeanceModePlan mode colors = .ok (steps, param, cs)) :
    cs.length ≤ 2 := by
  unfold vengeanceModePlan at h
  split_ifs at h <;>
    rcases colors with _ | ⟨c, _ | ⟨c2, rest⟩⟩ <;>
    simp at h <;>
    (obtain ⟨-, -, h3⟩ := h; rw [← h3]; simp)

/-- C3: for every successful `set_color` call, the register writes at the
control address `spd_address + 8` follow the mode table exactly: `off`
writes step-count 1, parameter 0 and one all-zero triplet; `fixed` with one
color writes step-count 1, parameter 0 and that color's triplet;
`breathing` with two colors writes step-count 2, parameter 2 and both
triplets in order, but with a single color writes step-count 1 and
parameter 0; `fading` with two colors writes step-count 2, parameter 1 and
both triplets in order; and at most 2 triplets (6 triplet-region bytes) are
ever written.  The per-mode facts are stated on the register file after
applying the writes: step count at `0xa7`, parameter at `0xa6`, triplets
from `0xb0`. -/
theorem vengeance_set_color_mode_table (spdAddress : Nat) (channel : String)
    (tokens : List String) (r1 g1 b1 r2 g2 b2 : Nat) (regs : Nat → Nat)
    (h1 : tokens.contains "smbus" = true)
    (h2 : tokens.contains "vengeance_rgb" = true) :
    (∀ ctrl ws, vengeanceSetColor spdAddress channel "off" [] tokens = .ok (ctrl, ws) →
      ctrl = spdAddress + 8
        ∧ applyWrites ws regs 0xa7 = 1 ∧ applyWrites ws regs 0xa6 = 0
        ∧ applyWrites ws regs 0xb0 = 0 ∧ applyWrites ws regs 0xb1 = 0
        ∧ applyWrites ws regs 0xb2 = 0)
    ∧ (∀ ctrl ws,
        vengeanceSetColor spdAddress channel "fixed" [(r1, g1, b1)] tokens
          = .ok (ctrl, ws) →
      ctrl = spdAddress + 8
        ∧ applyWrites ws regs 0xa7 = 1 ∧ applyWrites ws regs 0xa6 = 0
        ∧ applyWrites ws regs 0xb0 = r1 ∧ applyWrites ws regs 0xb1 = g1
        ∧ applyWrites ws regs 0xb2 = b1)
    ∧ (∀ ctrl ws,
        vengeanceSetColor spdAddress channel "breathing" [(r1, g1, b1), (r2, g2, b2)]
          tokens = .ok (ctrl, ws) →
      ctrl = spdAddress + 8
        ∧ applyWrites ws regs 0xa7 = 2 ∧ applyWrites ws regs 0xa6 = 2
        ∧ applyWrites ws regs 0xb0 = r1 ∧ applyWrites ws regs 0xb1 = g1
        ∧ applyWrites ws regs 0xb2 = b1
        ∧ applyWrites ws regs 0xb3 = r2 ∧ applyWrites ws regs 0xb4 = g2
        ∧ applyWrites ws regs 0xb5 = b2)
    ∧ (∀ ctrl ws,
        vengeanceSetColor spdAddress channel "breathing" [(r1, g1, b1)] tokens
          = .ok (ctrl, ws) →
      ctrl = spdAddress + 8
        ∧ applyWrites ws regs 0xa7 = 1 ∧ applyWrites ws regs 0xa6 = 0
        ∧ applyWrites ws regs 0xb0 = r1 ∧ applyWrites ws regs 0xb1 = g1
        ∧ applyWrites ws regs 0xb2 = b1)
    ∧ (∀ ctrl ws,
        vengeanceSetColor spdAddress channel "fading" [(r1, g1, b1), (r2, g2, b2)]
          tokens = .ok (ctrl, ws) →
      ctrl = spdAddress + 8
        ∧ applyWrites ws regs 0xa7 = 2 ∧ applyWrites ws regs 0xa6 = 1
        ∧ applyWrites ws regs 0xb0 = r1 ∧ applyWrites ws regs 0xb1 = g1
        ∧ applyWrites ws regs 0xb2 = b1
        ∧ applyWrites ws regs 0xb3 = r2 ∧ applyWrites ws regs 0xb4 = g2
        ∧ applyWrites ws regs 0xb5 = b2)
    ∧ (∀ mode colors ctrl ws,
        vengeanceSetColor spdAddress channel mode colors tokens = .ok (ctrl, ws) →
        (ws.filter (fun w => decide (0xb0 ≤ w.1))).length ≤ 6) := by
  have h1' : "smbus" ∈ tokens := by simpa using h1
  have h2' : "vengeance_rgb" ∈ tokens := by simpa using h2
  refine ⟨?_, ?_, ?_, ?_, ?_, ?_⟩
  · intro ctrl ws h
    unfold vengeanceSetColor checkUnsafe at h
    simp [h1', h2', vengeanceModePlan] at h
    obtain ⟨hc, hw⟩ := h
    subst hc
    rw [← hw]
    simp [tripletWrites, applyWrites]
  · intro ctrl ws h
    unfold vengeanceSetColor checkUnsafe at h
    simp [h1', h2', vengeanceModePlan] at h
    obtain ⟨hc, hw⟩ := h
    subst hc
    rw [← hw]
    simp [tripletWrites, applyWrites]
  · intro ctrl ws h
    unfold vengeanceSetColor checkUnsafe at h
    simp [h1', h2', vengeanceModePlan] at h
    obtain ⟨hc, hw⟩ := h
    subst hc
    rw [← hw]
    simp [tripletWrites, applyWrites]
  · intro ctrl ws h
    unfold vengeanceSetColor checkUnsafe at h
    simp [h1', h2', vengeanceModePlan] at h
    obtain ⟨hc, hw⟩ := h
    subst hc
    rw [← hw]
    simp [tripletWrites, applyWrites]
  · intro ctrl ws h
    unfold vengeanceSetColor checkUnsafe at h
    simp [h1', h2', vengeanceModePlan] at h
    obtain ⟨hc, hw⟩ := h
    subst hc
    rw [← hw]
    simp [tripletWrites, applyWrites]
  · intro mode colors ctrl ws h
    unfold vengeanceSetColor checkUnsafe at h
    simp [h1', h2'] at h
    cases hplan : vengeanceModePlan mode colors with
    | error e => rw [hplan] at h; simp at h
    | ok plan =>
        obtain ⟨steps, param, cs⟩ := plan
        rw [hplan] at h
        simp at h
        obtain ⟨-, hw⟩ := h
        rw [← hw]
        have hpre :
            List.filter (fun w => decide (0xb0 ≤ w.1))
              ((0xa4, 0) :: (0xa5, 0) :: (0xa7, steps) :: (0xa6, param)
                :: tripletWrites 0xb0 cs)
              = List.filter (fun w => decide (0xb0 ≤ w.1)) (tripletWrites 0xb0 cs) := by
          simp [List.filter]
        rw [hpre]
        calc (List.filter (fun w => decide (0xb0 ≤ w.1))
                (tripletWrites 0xb0 cs)).length
            ≤ (tripletWrites 0xb0 cs).length := List.length_filter_le _ _
          _ = 3 * cs.length := tripletWrites_length cs 0xb0
          _ ≤ 6 := by
              have := vengeanceModePlan_le_two mode colors steps param cs hplan
              omega

/-- Witness for C3: the documented `breathing` call with two colors, at its
concrete write list, ends with step count 2, parameter 2 and the two
triplets in order on an all-zero register file. -/
theorem vengeance_set_color_mode_table_witness :
    (0x59 : Nat) = 0x51 + 8
    ∧ applyWrites
        [(0xa4, 0), (0xa5, 0), (0xa7, 2), (0xa6, 2), (0xb0, 0xff), (0xb1, 0x35),
         (0xb2, 0x5e), (0xb3, 0x1a), (0xb4, 0xb3), (0xb5, 0x85)] (fun _ => 0) 0xa7 = 2
    ∧ applyWrites
        [(0xa4, 0), (0xa5, 0), (0xa7, 2), (0xa6, 2), (0xb0, 0xff), (0xb1, 0x35),
         (0xb2, 0x5e), (0xb3, 0x1a), (0xb4, 0xb3), (0xb5, 0x85)] (fun _ => 0) 0xa6 = 2
    ∧ applyWrites
        [(0xa4, 0), (0xa5, 0), (0xa7, 2), (0xa6, 2), (0xb0, 0xff), (0xb1, 0x35),
         (0xb2, 0x5e), (0xb3, 0x1a), (0xb4, 0xb3), (0xb5, 0x85)] (fun _ => 0) 0xb0 = 0xff
    ∧ applyWrites
        [(0xa4, 0), (0xa5, 0), (0xa7, 2), (0xa6, 2), (0xb0, 0xff), (0xb1, 0x35),
         (0xb2, 0x5e), (0xb3, 0x1a), (0xb4, 0xb3), (0xb5, 0x85)] (fun _ => 0) 0xb1 = 0x35
    ∧ applyWrites
        [(0xa4, 0), (0xa5, 0), (0xa7, 2), (0xa6, 2), (0xb0, 0xff), (0xb1, 0x35),
         (0xb2, 0x5e), (0xb3, 0x1a), (0xb4, 0xb3), (0xb5, 0x85)] (fun _ => 0) 0xb2 = 0x5e
    ∧ applyWrites
        [(0xa4, 0), (0xa5, 0), (0xa7, 2), (0xa6, 2), (0xb0, 0xff), (0xb1, 0x35),
         (0xb2, 0x5e), (0xb3, 0x1a), (0xb4, 0xb3), (0xb5, 0x85)] (fun _ => 0) 0xb3 = 0x1a
    ∧ applyWrites
        [(0xa4, 0), (0xa5, 0), (0xa7, 2), (0xa6, 2), (0xb0, 0xff), (0xb1, 0x35),
         (0xb2, 0x5e), (0xb3, 0x1a), (0xb4, 0xb3), (0xb5, 0x85)] (fun _ => 0) 0xb4 = 0xb3
    ∧ applyWrites
        [(0xa4, 0), (0xa5, 0), (0xa7, 2), (0xa6, 2), (0xb0, 0xff), (0xb1, 0x35),
         (0xb2, 0x5e), (0xb3, 0x1a), (0xb4, 0xb3), (0xb5, 0x85)] (fun _ => 0) 0xb5 = 0x85 :=
  (vengeance_set_color_mode_table 0x51 "led" ["smbus", "vengeance_rgb"]
    0xff 0x35 0x5e 0x1a 0xb3 0x85 (fun _ => 0) (by decide) (by decide)).2.2.1
    0x59
    [(0xa4, 0), (0xa5, 0), (0xa7, 2), (0xa6, 2), (0xb0, 0xff), (0xb1, 0x35),
     (0xb2, 0x5e), (0xb3, 0x1a), (0xb4, 0xb3), (0xb5, 0x85)]
    rfl

/-- Helper: a `filterMap` whose function is an if-guarded `some` is a
`filter` followed by a `map`. -/
theorem filterMap_guard_eq_map_filter {α β : Type} (p : α → Bool) (g : α → β)
    (f : α → Option β) (hf : ∀ a, f a = if p a then some (g a) else none) :
    ∀ l : List α, l.filterMap f = (l.filter p).map g := by
  intro l
  induction l with
  | nil => simp
  | cons x xs ih =>
      rw [List.filterMap_cons, List.filter_cons, hf x]
      by_cases hp : p x <;> simp [hp, ih]

/-- Helper: the SPD address range is strictly ascending. -/
theorem spdAddresses_pairwise : List.Pairwise (fun x y => x < y) spdAddresses := by
  decide

/-- C4: the temperature-driver probe scans addresses `0x50–0x57` and yields
an instance exactly for the addresses where the SPD dump is present and
decodes successfully, the thermal-sensor bit is set, and the bound kernel
driver (when available) is allowed; instances come in ascending address
order, each description embeds the decoded manufacturer and the 1-based
slot index `address − 0x4f`; on the documented bus with four TS-positive
dumps at `0x51/0x53/0x55/0x57` exactly four instances result and the second
one's description contains `DIMM4`. -/
theorem ddr4_probe_scan (b : VBus) :
    ddr4Probe b
      = (spdAddresses.filter (fun a => ddr4Eligible b a)).map
          (fun a => ⟨a, ddr4Description (ddr4ManufacturerAt b a) a⟩)
    ∧ List.Pairwise (fun x y => x < y) ((ddr4Probe b).map (fun i => i.address))
    ∧ (ddr4Probe fourDimmBus).length = 4
    ∧ (ddr4Probe fourDimmBus).map (fun i => i.address) = [0x51, 0x53, 0x55, 0x57]
    ∧ ((ddr4Probe fourDimmBus).map (fun i => i.description)).getD 1 ""
        = "Corsair " ++ "DIMM4" ++ " (experimental)" := by
  have key : ∀ c : VBus, ddr4Probe c
      = (spdAddresses.filter (fun a => ddr4Eligible c a)).map
          (fun a => ⟨a, ddr4Description (ddr4ManufacturerAt c a) a⟩) := by
    intro c
    by_cases hall : parentDriverAllowed c = true
    · unfold ddr4Probe
      rw [if_pos hall]
      refine filterMap_guard_eq_map_filter _ _ _ ?_ spdAddresses
      intro a
      unfold ddr4Eligible ddr4ManufacturerAt
      rw [hall]
      cases hd : c.spdData a with
      | none => simp
      | some dump =>
          cases hs : decodeSpd dump with
          | none => simp [hs]
          | some spd =>
              by_cases hts : spd.thermalSensorPresent = true <;> simp [hs, hts]
    · unfold ddr4Probe ddr4Eligible
      simp [hall]
  refine ⟨key b, ?_, ?_, ?_, ?_⟩
  · rw [key b, List.map_map]
    have hid : ((fun i : Ddr4Instance => i.address)
        ∘ (fun a => (⟨a, ddr4Description (ddr4ManufacturerAt b a) a⟩ : Ddr4Instance)))
        = fun a => a := rfl
    rw [hid]
    simp only [List.map_id']
    exact spdAddresses_pairwise.filter _
  · decide
  · decide
  · decide

/-- Helper: two sorted lists that are permutations of one another and whose
order is antisymmetric on their elements are equal. -/
theorem sorted_eq_of_perm {α : Type} (le : α → α → Bool) (l₁ l₂ : List α)
    (hp : l₁.Perm l₂)
    (hs₁ : List.Pairwise (fun a b => le a b = true) l₁)
    (hs₂ : List.Pairwise (fun a b => le a b = true) l₂)
    (ha : ∀ a ∈ l₁, ∀ b ∈ l₁, le a b = true → le b a = true → a = b) :
    l₁ = l₂ := by
  induction l₁ generalizing l₂ with
  | nil => exact hp.symm.eq_nil.symm
  | cons a t ih =>
      cases l₂ with
      | nil => exact absurd hp.eq_nil (by simp)
      | cons c t₂ =>
          have hac : a = c := by
            have hmem : a ∈ c :: t₂ := hp.subset (List.mem_cons_self a t)
            rcases List.mem_cons.mp hmem with h | h
            · exact h
            · have hca : c ∈ a :: t := hp.symm.subset (List.mem_cons_self c t₂)
              rcases List.mem_cons.mp hca with h' | h'
              · exact h'.symm
              · have hab : le a c = true := (List.pairwise_cons.mp hs₁).1 c h'
                have hba : le c a = true := (List.pairwise_cons.mp hs₂).1 a h
                exact ha a (List.mem_cons_self a t) c
                  (List.mem_cons.mpr (Or.inr h')) hab hba
          subst hac
          have hpt : t.Perm t₂ := hp.cons_inv
          have heq := ih t₂ hpt (List.pairwise_cons.mp hs₁).2
            (List.pairwise_cons.mp hs₂).2
            (fun x hx y hy => ha x (List.mem_cons_of_mem a hx) y
              (List.mem_cons_of_mem a hy))
          rw [heq]

/-- Helper: the driver order is transitive. -/
theorem driverLe_trans (a b c : SmbusDriverDesc)
    (h1 : driverLe a b = true) (h2 : driverLe b c = true) :
    driverLe a c = true := by
  unfold driverLe at *
  simp only [Bool.or_eq_true, Bool.and_eq_true, decide_eq_true_eq] at *
  rcases h1 with h1 | ⟨h1e, h1c⟩ <;> rcases h2 with h2 | ⟨h2e, h2c⟩
  · exact Or.inl (lt_trans h1 h2)
  · exact Or.inl (h2e ▸ h1)
  · exact Or.inl (h1e ▸ h2)
  · exact Or.inr ⟨h1e.trans h2e, le_trans h1c h2c⟩

/-- Helper: the driver order is total. -/
theorem driverLe_total (a b : SmbusDriverDesc) :
    (driverLe a b || driverLe b a) = true := by
  unfold driverLe
  simp only [Bool.or_eq_true, Bool.and_eq_true, decide_eq_true_eq]
  rcases lt_trichotomy a.modName b.modName with h | h | h
  · tauto
  · rcases le_total a.clsName b.clsName with hc | hc
    · exact Or.inl (Or.inr ⟨h, hc⟩)
    · exact Or.inr (Or.inr ⟨h.symm, hc⟩)
  · tauto

/-- Helper: mutually ordered descriptors have equal sort keys. -/
theorem driverLe_antisymm_key (a b : SmbusDriverDesc)
    (h1 : driverLe a b = true) (h2 : driverLe b a = true) :
    driverSortKey a = driverSortKey b := by
  unfold driverLe at h1 h2
  unfold driverSortKey
  simp only [Bool.or_eq_true, Bool.and_eq_true, decide_eq_true_eq] at h1 h2
  rcases h1 with h1 | ⟨h1e, h1c⟩ <;> rcases h2 with h2 | ⟨h2e, h2c⟩
  · exact absurd (lt_trans h1 h2) (lt_irrefl _)
  · exact absurd h1 (h2e ▸ lt_irrefl _)
  · exact absurd h2 (h1e ▸ lt_irrefl _)
  · exact Prod.ext h1e (le_antisymm h1c h2c)

/-- Helper: with pairwise-distinct sort keys, the sorted registry does not
depend on the registration order. -/
theorem sortDrivers_deterministic (drivers drivers' : List SmbusDriverDesc)
    (hperm : drivers.Perm drivers')
    (hkeys : ∀ a ∈ drivers, ∀ b ∈ drivers,
      driverSortKey a = driverSortKey b → a = b) :
    sortDrivers drivers = sortDrivers drivers' := by
  unfold sortDrivers
  refine sorted_eq_of_perm driverLe _ _ ?_ ?_ ?_ ?_
  · exact ((drivers.mergeSort_perm driverLe).trans hperm).trans
      (drivers'.mergeSort_perm driverLe).symm
  · exact List.sorted_mergeSort (fun a b c => driverLe_trans a b c)
      driverLe_total drivers
  · exact List.sorted_mergeSort (fun a b c => driverLe_trans a b c)
      driverLe_total drivers'
  · intro a haMem b hbMem hab hba
    have ha' : a ∈ drivers := (drivers.mergeSort_perm driverLe).subset haMem
    have hb' : b ∈ drivers := (drivers.mergeSort_perm driverLe).subset hbMem
    exact hkeys a ha' b hb' (driverLe_antisymm_key a b hab hba)

/-- Helper: a `flatMap` whose function is if-guarded is a `filter` followed
by a `flatMap`. -/
theorem flatMap_guard_eq_filter_flatMap {α β : Type} (p : α → Bool)
    (g : α → List β) (f : α → List β)
    (hf : ∀ a, f a = if p a then g a else []) :
    ∀ l : List α, l.flatMap f = (l.filter p).flatMap g := by
  intro l
  induction l with
  | nil => simp
  | cons x xs ih =>
      rw [List.flatMap_cons, List.filter_cons, hf x]
      by_cases hp : p x <;> simp [hp, ih]

/-- C8: the discovery engine sorts the registered driver descriptors by the
stable `(module, name)` key before probing, so for a fixed set of registered
drivers (pairwise-distinct keys; any registration order) and fixed bus
entries the discovered sequence is identical; and on the success path every
surviving bus entry contributes the concatenation of every sorted
descriptor's probe results. -/
theorem find_devices_deterministic (drivers drivers' : List SmbusDriverDesc)
    (entries : List I2cDev) (busFilter usbPort : Option String)
    (smbusAvailable rootExists : Bool)
    (hperm : drivers.Perm drivers')
    (hkeys : ∀ a ∈ drivers, ∀ b ∈ drivers,
      driverSortKey a = driverSortKey b → a = b) :
    findDevices drivers' entries busFilter usbPort smbusAvailable rootExists
      = findDevices drivers entries busFilter usbPort smbusAvailable rootExists
    ∧ (strTruthy usbPort = false → smbusAvailable = true → rootExists = true →
        findDevices drivers entries busFilter usbPort smbusAvailable rootExists
          = (entries.filter (fun e => (parseBusNumber e.devName).isSome
                && (!strTruthy busFilter || busFilter = some e.devName))).flatMap
              (fun e => (sortDrivers drivers).flatMap (fun d => d.probe e))) := by
  constructor
  · unfold findDevices
    rw [sortDrivers_deterministic drivers drivers' hperm hkeys]
  · intro hu hs hr
    unfold findDevices
    rw [hu, hs, hr]
    simp only [Bool.not_true, Bool.false_eq_true, if_false]
    refine flatMap_guard_eq_filter_flatMap _ _ _ ?_ entries
    intro e
    by_cases hparse : (parseBusNumber e.devName).isSome
    · have hparse' : (parseBusNumber e.devName).isNone = false := by
        rcases Option.isSome_iff_exists.mp hparse with ⟨v, hv⟩
        simp [hv]
      by_cases hbf : strTruthy busFilter
      · by_cases heq : busFilter = some e.devName
        · simp [hparse', hparse, hbf, heq, busFindDevices]
        · simp [hparse', hparse, hbf, heq]
      · simp only [Bool.not_eq_true] at hbf
        simp [hparse', hparse, hbf, busFindDevices]
    · have hparse' : (parseBusNumber e.devName).isNone = true := by
        simp only [Bool.not_eq_true] at hparse
        simp [Option.isNone_iff_eq_none, ← Option.not_isSome_iff_eq_none, hparse]
      simp only [Bool.not_eq_true] at hparse
      simp [hparse', hparse]

/-- Witness for C8: a two-driver registry probed in either registration
order over one bus entry yields the same sequence, which concatenates both
probes in sorted order. -/
theorem find_devices_deterministic_witness :
    findDevices
        [⟨"m", "B", fun _ => [2]⟩, ⟨"m", "A", fun _ => [1]⟩]
        [⟨"i2c-0"⟩] none none true true
      = findDevices
        [⟨"m", "A", fun _ => [1]⟩, ⟨"m", "B", fun _ => [2]⟩]
        [⟨"i2c-0"⟩] none none true true
    ∧ findDevices
        [⟨"m", "A", fun _ => [1]⟩, ⟨"m", "B", fun _ => [2]⟩]
        [⟨"i2c-0"⟩] none none true true
      = (([⟨"i2c-0"⟩] : List I2cDev).filter (fun e =>
            (parseBusNumber e.devName).isSome
              && (!strTruthy none || none = some e.devName))).flatMap
          (fun e =>
            (sortDrivers [⟨"m", "A", fun _ => [1]⟩, ⟨"m", "B", fun _ => [2]⟩]).flatMap
              (fun d => d.probe e)) := by
  have h := find_devices_deterministic
    [⟨"m", "A", fun _ => [1]⟩, ⟨"m", "B", fun _ => [2]⟩]
    [⟨"m", "B", fun _ => [2]⟩, ⟨"m", "A", fun _ => [1]⟩]
    [⟨"i2c-0"⟩] none none true true
    (List.Perm.swap _ _ _)
    (by
      intro a ha b hb hab
      simp only [List.mem_cons, List.not_mem_nil, or_false] at ha hb
      unfold driverSortKey at hab
      rcases ha with ha | ha <;> rcases hb with hb | hb <;> subst ha <;> subst hb <;>
        simp_all)
  exact ⟨h.1, h.2 rfl rfl rfl⟩
